import Mathlib

/-!
Shallow embedding of `src/Tools/Python/phoneme_converter/phoneme_converter.py`.

Strings are embedded as `List Char`.  The regex substitutions of
`clean_rich_text` are embedded by an explicit scanner: every pattern used by
the source is either a literal (`param = false`) or a literal prefix followed
by a greedy `[^X]*` wildcard and the single closing character `X`
(`param = true`, `stop = X`), which matches Python's leftmost-first,
ordered-alternation `re.sub` semantics for these patterns.
-/

namespace PhonemeConverter

/-- One alternative of one of the `re.sub` patterns of `clean_rich_text`:
a literal prefix, optionally followed by a greedy run of characters other
than `stop` and then `stop` itself (the `tag=[^>]*>` / `[tag=[^\]]*]` forms). -/
structure TagPat where
  pre : List Char
  param : Bool
  stop : Char
deriving DecidableEq

/-- Match the literal prefix at the head of the input, returning the remainder. -/
def strip_pre : List Char → List Char → Option (List Char)
  | [], s => some s
  | _ :: _, [] => none
  | p :: ps, c :: cs => if c = p then strip_pre ps cs else none

/-- Consume characters up to and including the first `stop`; fail when no
`stop` occurs (the greedy `[^X]*X` tail of a parameterized tag). -/
def match_param (stop : Char) : List Char → Option (List Char)
  | [] => none
  | c :: rest => if c = stop then some rest else match_param stop rest

/-- Match one pattern at the head of the input, returning the remainder. -/
def match_at (p : TagPat) (s : List Char) : Option (List Char) :=
  match strip_pre p.pre s with
  | none => none
  | some rest => if p.param then match_param p.stop rest else some rest

/-- Try the alternatives of one regex in order at the head of the input. -/
def try_pats : List TagPat → List Char → Option (List Char)
  | [], _ => none
  | p :: ps, s =>
    match match_at p s with
    | some r => some r
    | none => try_pats ps s

/-- One `re.sub(pattern, chr(0x27)+chr(0x27), s)` pass: scan left to right, delete every
leftmost match, continue after it.  Fuel bounds the recursion; `s.length`
always suffices because every pattern consumes at least one character. -/
def sub_fuel (pats : List TagPat) : Nat → List Char → List Char
  | 0, s => s
  | _ + 1, [] => []
  | fuel + 1, c :: rest =>
    match try_pats pats (c :: rest) with
    | some rem => sub_fuel pats fuel rem
    | none => c :: sub_fuel pats fuel rest

/-- One `re.sub` with empty replacement, as used by `clean_rich_text`. -/
def re_sub (pats : List TagPat) (s : List Char) : List Char :=
  sub_fuel pats s.length s

/-- The 46 `re.sub` calls of `PhonemeConverter.clean_rich_text`, in source
order; each inner list is the ordered alternation of one regex. -/
def tag_groups : List (List TagPat) :=
  [
   [⟨['<', 'b', '>'], false, '>'⟩,
    ⟨['<', '/', 'b', '>'], false, '>'⟩],
   [⟨['<', 'i', '>'], false, '>'⟩,
    ⟨['<', '/', 'i', '>'], false, '>'⟩],
   [⟨['<', 'u', '>'], false, '>'⟩,
    ⟨['<', '/', 'u', '>'], false, '>'⟩],
   [⟨['<', 's', '>'], false, '>'⟩,
    ⟨['<', '/', 's', '>'], false, '>'⟩],
   [⟨['<', 's', 'u', 'b', '>'], false, '>'⟩,
    ⟨['<', '/', 's', 'u', 'b', '>'], false, '>'⟩],
   [⟨['<', 's', 'u', 'p', '>'], false, '>'⟩,
    ⟨['<', '/', 's', 'u', 'p', '>'], false, '>'⟩],
   [⟨['<', 'm', 'a', 'r', 'k', '>'], false, '>'⟩,
    ⟨['<', '/', 'm', 'a', 'r', 'k', '>'], false, '>'⟩],
   [⟨['<', 's', 'm', 'a', 'l', 'l', '>'], false, '>'⟩,
    ⟨['<', '/', 's', 'm', 'a', 'l', 'l', '>'], false, '>'⟩],
   [⟨['<', 'n', 'o', 'b', 'r', '>'], false, '>'⟩,
    ⟨['<', '/', 'n', 'o', 'b', 'r', '>'], false, '>'⟩],
   [⟨['<', 'c', 'o', 'l', 'o', 'r', '='], true, '>'⟩,
    ⟨['<', '/', 'c', 'o', 'l', 'o', 'r', '>'], false, '>'⟩],
   [⟨['<', 's', 'i', 'z', 'e', '='], true, '>'⟩,
    ⟨['<', '/', 's', 'i', 'z', 'e', '>'], false, '>'⟩],
   [⟨['<', 'f', 'o', 'n', 't', '='], true, '>'⟩,
    ⟨['<', '/', 'f', 'o', 'n', 't', '>'], false, '>'⟩],
   [⟨['<', 'm', 'a', 't', 'e', 'r', 'i', 'a', 'l', '='], true, '>'⟩,
    ⟨['<', '/', 'm', 'a', 't', 'e', 'r', 'i', 'a', 'l', '>'], false, '>'⟩],
   [⟨['<', 'q', 'u', 'a', 'd', '='], true, '>'⟩],
   [⟨['<', 's', 'p', 'r', 'i', 't', 'e', '='], true, '>'⟩],
   [⟨['<', 's', 'p', 'a', 'c', 'e', '='], true, '>'⟩],
   [⟨['<', 's', 't', 'y', 'l', 'e', '='], true, '>'⟩,
    ⟨['<', '/', 's', 't', 'y', 'l', 'e', '>'], false, '>'⟩],
   [⟨['<', 'a', 'l', 'i', 'g', 'n', '='], true, '>'⟩,
    ⟨['<', '/', 'a', 'l', 'i', 'g', 'n', '>'], false, '>'⟩],
   [⟨['<', 'a', 'l', 'p', 'h', 'a', '='], true, '>'⟩,
    ⟨['<', '/', 'a', 'l', 'p', 'h', 'a', '>'], false, '>'⟩],
   [⟨['<', 'c', 's', 'p', 'a', 'c', 'e', '='], true, '>'⟩,
    ⟨['<', '/', 'c', 's', 'p', 'a', 'c', 'e', '>'], false, '>'⟩],
   [⟨['<', 'f', 'o', 'n', 't', '-', 'w', 'e', 'i', 'g', 'h', 't', '='], true, '>'⟩,
    ⟨['<', '/', 'f', 'o', 'n', 't', '-', 'w', 'e', 'i', 'g', 'h', 't', '>'], false, '>'⟩],
   [⟨['<', 'i', 'n', 'd', 'e', 'n', 't', '='], true, '>'⟩,
    ⟨['<', '/', 'i', 'n', 'd', 'e', 'n', 't', '>'], false, '>'⟩],
   [⟨['<', 'l', 'i', 'n', 'e', '-', 'h', 'e', 'i', 'g', 'h', 't', '='], true, '>'⟩,
    ⟨['<', '/', 'l', 'i', 'n', 'e', '-', 'h', 'e', 'i', 'g', 'h', 't', '>'], false, '>'⟩],
   [⟨['<', 'l', 'i', 'n', 'e', '-', 'i', 'n', 'd', 'e', 'n', 't', '='], true, '>'⟩,
    ⟨['<', '/', 'l', 'i', 'n', 'e', '-', 'i', 'n', 'd', 'e', 'n', 't', '>'], false, '>'⟩],
   [⟨['<', 'l', 'i', 'n', 'k', '='], true, '>'⟩,
    ⟨['<', '/', 'l', 'i', 'n', 'k', '>'], false, '>'⟩],
   [⟨['<', 'l', 'o', 'w', 'e', 'r', 'c', 'a', 's', 'e', '>'], false, '>'⟩,
    ⟨['<', '/', 'l', 'o', 'w', 'e', 'r', 'c', 'a', 's', 'e', '>'], false, '>'⟩],
   [⟨['<', 'u', 'p', 'p', 'e', 'r', 'c', 'a', 's', 'e', '>'], false, '>'⟩,
    ⟨['<', '/', 'u', 'p', 'p', 'e', 'r', 'c', 'a', 's', 'e', '>'], false, '>'⟩],
   [⟨['<', 's', 'm', 'a', 'l', 'l', 'c', 'a', 'p', 's', '>'], false, '>'⟩,
    ⟨['<', '/', 's', 'm', 'a', 'l', 'l', 'c', 'a', 'p', 's', '>'], false, '>'⟩],
   [⟨['<', 'm', 'a', 'r', 'g', 'i', 'n', '='], true, '>'⟩,
    ⟨['<', '/', 'm', 'a', 'r', 'g', 'i', 'n', '>'], false, '>'⟩],
   [⟨['<', 'm', 'o', 'n', 'o', 's', 'p', 'a', 'c', 'e', '='], true, '>'⟩,
    ⟨['<', '/', 'm', 'o', 'n', 'o', 's', 'p', 'a', 'c', 'e', '>'], false, '>'⟩],
   [⟨['<', 'm', 's', 'p', 'a', 'c', 'e', '='], true, '>'⟩],
   [⟨['<', 'n', 'o', 'p', 'a', 'r', 's', 'e', '>'], false, '>'⟩,
    ⟨['<', '/', 'n', 'o', 'p', 'a', 'r', 's', 'e', '>'], false, '>'⟩],
   [⟨['<', 'p', 'a', 'g', 'e', '>'], false, '>'⟩],
   [⟨['<', 'p', 'o', 's', '='], true, '>'⟩],
   [⟨['<', 'r', 'o', 't', 'a', 't', 'e', '='], true, '>'⟩,
    ⟨['<', '/', 'r', 'o', 't', 'a', 't', 'e', '>'], false, '>'⟩],
   [⟨['<', 's', 't', 'r', 'i', 'k', 'e', 't', 'h', 'r', 'o', 'u', 'g', 'h', '>'], false, '>'⟩,
    ⟨['<', '/', 's', 't', 'r', 'i', 'k', 'e', 't', 'h', 'r', 'o', 'u', 'g', 'h', '>'], false, '>'⟩],
   [⟨['<', 'u', 'n', 'd', 'e', 'r', 'l', 'i', 'n', 'e', '>'], false, '>'⟩,
    ⟨['<', '/', 'u', 'n', 'd', 'e', 'r', 'l', 'i', 'n', 'e', '>'], false, '>'⟩],
   [⟨['<', 'v', 'o', 'f', 'f', 's', 'e', 't', '='], true, '>'⟩,
    ⟨['<', '/', 'v', 'o', 'f', 'f', 's', 'e', 't', '>'], false, '>'⟩],
   [⟨['<', 'w', 'i', 'd', 't', 'h', '='], true, '>'⟩,
    ⟨['<', '/', 'w', 'i', 'd', 't', 'h', '>'], false, '>'⟩],
   [⟨['[', 's', 'h', 'a', 'k', 'e', ']'], false, '>'⟩,
    ⟨['[', '/', 's', 'h', 'a', 'k', 'e', ']'], false, '>'⟩],
   [⟨['[', 'b', 'o', 'u', 'n', 'c', 'e', ']'], false, '>'⟩,
    ⟨['[', '/', 'b', 'o', 'u', 'n', 'c', 'e', ']'], false, '>'⟩],
   [⟨['[', 'f', 'a', 'd', 'e', ']'], false, '>'⟩,
    ⟨['[', '/', 'f', 'a', 'd', 'e', ']'], false, '>'⟩],
   [⟨['[', 'v', 'o', 'i', 'c', 'e', '='], true, ']'⟩,
    ⟨['[', '/', 'v', 'o', 'i', 'c', 'e', ']'], false, '>'⟩],
   [⟨['[', 's', 'p', 'e', 'e', 'd', '='], true, ']'⟩,
    ⟨['[', '/', 's', 'p', 'e', 'e', 'd', ']'], false, '>'⟩],
   [⟨['[', 'w', 'a', 'i', 't', '='], true, ']'⟩],
   [⟨['[', 'e', 'm', 'o', 't', 'i', 'o', 'n', '='], true, ']'⟩,
    ⟨['[', '/', 'e', 'm', 'o', 't', 'i', 'o', 'n', ']'], false, '>'⟩]
  ]

/-- `PhonemeConverter.clean_rich_text`: apply the 46 substitutions in order. -/
def clean_rich_text (text : List Char) : List Char :=
  tag_groups.foldl (fun t g => re_sub g t) text

/-- The character class `[\r\n\s]` of `process_text` (Python `re` on `str`:
ASCII whitespace, the information separators U+001C..U+001F, and the Unicode
space characters). -/
def python_space_chars : List Char :=
  ['\t', '\n', '\u000b', '\u000c', '\r', '\u001c', '\u001d', '\u001e', '\u001f', ' ', '\u0085', '\u00a0', '\u1680', '\u2000', '\u2001', '\u2002', '\u2003', '\u2004', '\u2005', '\u2006', '\u2007', '\u2008', '\u2009', '\u200a', '\u2028', '\u2029', '\u202f', '\u205f', '　']

/-- The punctuation/bracket literal of `process_text` (note: in the source it
is two adjacent Python string literals, so it contains the double quote and
no apostrophe). -/
def punctuation_chars : List Char :=
  ['.', ',', '。', '、', '！', '？', '!', '?', '；', ';', '：', ':', '「', '」', '『', '』', '(', ')', '（', '）', '[', ']', '【', '】', '〈', '〉', '《', '》', '\u0022', '\u0022', '\u2026', '\u2025', '・']

/-- `PhonemeConverter.hiragana_phoneme_map`: the kana glyph to phoneme-string
table, in source order.  Bilabial-row kana map to the two-character strings
na/ni/nu/ne/no. -/
def hiragana_phoneme_map : List (Char × List Char) :=
  [
   ('あ', ['a']), ('い', ['i']), ('う', ['u']), ('え', ['e']), ('お', ['o']),
   ('か', ['a']), ('き', ['i']), ('く', ['u']), ('け', ['e']), ('こ', ['o']),
   ('が', ['a']), ('ぎ', ['i']), ('ぐ', ['u']), ('げ', ['e']), ('ご', ['o']),
   ('さ', ['a']), ('し', ['i']), ('す', ['u']), ('せ', ['e']), ('そ', ['o']),
   ('ざ', ['a']), ('じ', ['i']), ('ず', ['u']), ('ぜ', ['e']), ('ぞ', ['o']),
   ('た', ['a']), ('ち', ['i']), ('つ', ['u']), ('て', ['e']), ('と', ['o']),
   ('だ', ['a']), ('ぢ', ['i']), ('づ', ['u']), ('で', ['e']), ('ど', ['o']),
   ('な', ['a']), ('に', ['i']), ('ぬ', ['u']), ('ね', ['e']), ('の', ['o']),
   ('は', ['a']), ('ひ', ['i']), ('ふ', ['u']), ('へ', ['e']), ('ほ', ['o']),
   ('ば', ['n', 'a']), ('び', ['n', 'i']), ('ぶ', ['n', 'u']), ('べ', ['n', 'e']), ('ぼ', ['n', 'o']),
   ('ぱ', ['n', 'a']), ('ぴ', ['n', 'i']), ('ぷ', ['n', 'u']), ('ぺ', ['n', 'e']), ('ぽ', ['n', 'o']),
   ('ま', ['n', 'a']), ('み', ['n', 'i']), ('む', ['n', 'u']), ('め', ['n', 'e']), ('も', ['n', 'o']),
   ('や', ['a']), ('ゆ', ['u']), ('よ', ['o']),
   ('ら', ['a']), ('り', ['i']), ('る', ['u']), ('れ', ['e']), ('ろ', ['o']),
   ('わ', ['a']), ('ゐ', ['i']), ('ゑ', ['e']), ('を', ['o']),
   ('ん', ['n']),
   ('ゃ', ['a']), ('ゅ', ['u']), ('ょ', ['o']),
   ('っ', ['-']), ('ー', ['-'])
  ]


/-- Python `dict.get`: first binding of the key, if any. -/
def dict_get : List (Char × List Char) → Char → Option (List Char)
  | [], _ => none
  | (k, v) :: rest, c => if c = k then some v else dict_get rest c

/-- `PhonemeConverter.hiragana_to_phoneme`: table lookup with default `-`. -/
def hiragana_to_phoneme (c : Char) : List Char :=
  (dict_get hiragana_phoneme_map c).getD ['-']

/-- The `small_chars` local of `PhonemeConverter.count_mora`. -/
def small_chars : List Char :=
  ['ゃ', 'ゅ', 'ょ', 'っ', 'ァ', 'ィ', 'ゥ', 'ェ', 'ォ', 'ャ', 'ュ', 'ョ', 'ッ']

/-- The whitespace/punctuation literal of `count_mora` (and of
`char_to_phoneme`). -/
def mora_skip_chars : List Char := [' ', '\t', '\n', '.', ',', '。', '、']

/-- `PhonemeConverter.count_mora`: count the characters that are neither
small kana nor whitespace/punctuation. -/
def count_mora : List Char → Nat
  | [] => 0
  | c :: rest =>
    (if c ∉ small_chars ∧ c ∉ mora_skip_chars then 1 else 0) + count_mora rest

/-- Tag stripping followed by the whitespace removal
`re.sub(r'[\r\n\s]', chr(0x27)+chr(0x27), text)` of `process_text`. -/
def cleaned_text (text : List Char) : List Char :=
  (clean_rich_text text).filter (fun c => c ∉ python_space_chars)

/-- The inner loop of `process_text` over one character's hiragana reading:
look up each glyph and drop the glyphs that resolve to `-`. -/
def char_phonemes (to_hiragana : Char → List Char) (c : Char) : List (List Char) :=
  ((to_hiragana c).map hiragana_to_phoneme).filter (fun p => p ≠ ['-'])

/-- `phoneme_count = len(char_phonemes) if char_phonemes else 1`. -/
def phoneme_count (to_hiragana : Char → List Char) (c : Char) : Nat :=
  if char_phonemes to_hiragana c = [] then 1 else (char_phonemes to_hiragana c).length

/-- Python `str(n)` for a natural number, as a character list. -/
def natRepr (n : Nat) : List Char := (Nat.repr n).data

/-- One iteration of the character loop of `process_text`: the string appended
to `phoneme_counts` and the list of phonemes appended to `all_phonemes`. -/
def process_char (to_hiragana : Char → List Char) (c : Char) :
    List Char × List (List Char) :=
  if c ∈ punctuation_chars then (['1'], [['-']])
  else
    (natRepr (phoneme_count to_hiragana c),
     if char_phonemes to_hiragana c = [] then [['-']] else char_phonemes to_hiragana c)

/-- The numeric per-character phoneme count (1 for punctuation). -/
def char_count (to_hiragana : Char → List Char) (c : Char) : Nat :=
  if c ∈ punctuation_chars then 1 else phoneme_count to_hiragana c

/-- Python `str.join` with separator `,` over a list of strings. -/
def commaJoin : List (List Char) → List Char
  | [] => []
  | [t] => t
  | t :: rest => t ++ ',' :: commaJoin rest

/-- Split a string at every comma (inverse of `commaJoin` on comma-free,
nonempty tokens); used to talk about the tokens of the phoneme stream. -/
def splitComma : List Char → List (List Char)
  | [] => [[]]
  | c :: rest =>
    if c = ',' then [] :: splitComma rest
    else
      match splitComma rest with
      | t :: ts => (c :: t) :: ts
      | [] => [[c]]

/-- `PhonemeConverter.process_text`: returns `(count_str, phoneme_str)`.
`to_hiragana` is the external backend's reading of one input character. -/
def process_text (to_hiragana : Char → List Char) (text : List Char) :
    List Char × List Char :=
  let clean_text := cleaned_text text
  if clean_text = [] then (['0'], ['-'])
  else
    let results := clean_text.map (process_char to_hiragana)
    let all_phonemes := (results.map Prod.snd).flatten
    let count_str := (results.map Prod.fst).flatten
    let phoneme_str := if all_phonemes = [] then ['-'] else commaJoin all_phonemes
    (count_str, phoneme_str)

/-- The twelve strings that can occur as comma-separated tokens of the
phoneme stream: the seven single symbols and the five bilabial encodings. -/
def twelveTokens : List (List Char) :=
  [['a'], ['i'], ['u'], ['e'], ['o'], ['n'], ['-'],
   ['n', 'a'], ['n', 'i'], ['n', 'u'], ['n', 'e'], ['n', 'o']]

/-- Whether one regex (ordered alternation of patterns) matches anywhere in
the input; `re_sub` with empty replacement is the identity exactly on inputs
without a match. -/
def has_match (pats : List TagPat) : List Char → Bool
  | [] => false
  | c :: rest => (try_pats pats (c :: rest)).isSome || has_match pats rest

/-- Whether any of the 46 recognized tag regexes matches anywhere. -/
def has_any_tag (s : List Char) : Bool :=
  tag_groups.any (fun g => has_match g s)

/-- The bilabial-row kana (the ば, ぱ and ま rows), each paired with the
vowel symbol of its column: ば→a, び→i, ぶ→u, べ→e, ぼ→o, and likewise for
the ぱ and ま rows. -/
def bilabial_vowel_pairs : List (Char × Char) :=
  [('ば', 'a'), ('び', 'i'), ('ぶ', 'u'), ('べ', 'e'), ('ぼ', 'o'),
   ('ぱ', 'a'), ('ぴ', 'i'), ('ぷ', 'u'), ('ぺ', 'e'), ('ぽ', 'o'),
   ('ま', 'a'), ('み', 'i'), ('む', 'u'), ('め', 'e'), ('も', 'o')]

/-- The seven phoneme symbols of the spec, as one-character tokens. -/
def sevenTokens : List (List Char) :=
  [['a'], ['i'], ['u'], ['e'], ['o'], ['n'], ['-']]

/-- The nonzero decimal digit characters. -/
def nonzero_digits : List Char :=
  ['1', '2', '3', '4', '5', '6', '7', '8', '9']

/-- Modelled from the claim words of C9: the small-kana set ゃゅょっ plus
their katakana equivalents ャュョッ (only). -/
def claimC9_small_chars : List Char :=
  ['ゃ', 'ゅ', 'ょ', 'っ', 'ャ', 'ュ', 'ョ', 'ッ']

/-- Modelled from the claim words of C9: count the characters that are
neither in `claimC9_small_chars` nor whitespace/punctuation. -/
def claimC9_count_mora (h : List Char) : Nat :=
  (h.filter (fun c => c ∉ claimC9_small_chars ∧ c ∉ mora_skip_chars)).length

/-- The amended C9 small-kana set: ゃゅょっ, the small katakana vowels
ァィゥェォ, and the katakana equivalents ャュョッ. -/
def claimC9_amended_small_chars : List Char :=
  ['ゃ', 'ゅ', 'ょ', 'っ', 'ァ', 'ィ', 'ゥ', 'ェ', 'ォ', 'ャ', 'ュ', 'ョ', 'ッ']

/-- The amended C9 characterization of `count_mora`: count the characters
that are neither in `claimC9_amended_small_chars` nor in the
whitespace/punctuation set `mora_skip_chars`. -/
def claimC9_amended_count_mora (h : List Char) : Nat :=
  (h.filter (fun c => c ∉ claimC9_amended_small_chars ∧ c ∉ mora_skip_chars)).length

/-! ### Helper lemmas -/

theorem dict_get_getD_mem (m : List (Char × List Char)) (c : Char) (d : List Char) :
    (dict_get m c).getD d ∈ d :: m.map Prod.snd := by
  induction m with
  | nil => simp [dict_get]
  | cons kv rest ih =>
    obtain ⟨k, v⟩ := kv
    by_cases hk : c = k
    · simp [dict_get, hk]
    · simp only [dict_get, if_neg hk, List.map_cons]
      rcases List.mem_cons.mp ih with h | h
      · exact List.mem_cons.mpr (Or.inl h)
      · exact List.mem_cons.mpr (Or.inr (List.mem_cons.mpr (Or.inr h)))

theorem dict_get_eq_none (m : List (Char × List Char)) (c : Char)
    (h : c ∉ m.map Prod.fst) : dict_get m c = none := by
  induction m with
  | nil => rfl
  | cons kv rest ih =>
    obtain ⟨k, v⟩ := kv
    simp only [List.map_cons, List.mem_cons] at h
    push_neg at h
    simp only [dict_get, if_neg h.1]
    exact ih h.2

theorem hiragana_to_phoneme_mem_twelve (c : Char) :
    hiragana_to_phoneme c ∈ twelveTokens := by
  have h := dict_get_getD_mem hiragana_phoneme_map c ['-']
  have hall : ∀ x ∈ (['-'] :: hiragana_phoneme_map.map Prod.snd), x ∈ twelveTokens := by
    decide
  exact hall _ h

theorem process_char_punct (f : Char → List Char) (c : Char)
    (hp : c ∈ punctuation_chars) : process_char f c = (['1'], [['-']]) := by
  simp [process_char, hp]

theorem process_char_empty (f : Char → List Char) (c : Char)
    (hp : c ∉ punctuation_chars) (hcp : char_phonemes f c = []) :
    process_char f c = (['1'], [['-']]) := by
  simp only [process_char, if_neg hp, phoneme_count, if_pos hcp, hcp]
  rfl

theorem process_char_nonempty (f : Char → List Char) (c : Char)
    (hp : c ∉ punctuation_chars) (hcp : char_phonemes f c ≠ []) :
    process_char f c = (natRepr (char_phonemes f c).length, char_phonemes f c) := by
  simp [process_char, hp, phoneme_count, hcp]

theorem char_count_eq_snd_length (f : Char → List Char) (c : Char) :
    char_count f c = (process_char f c).2.length := by
  by_cases hp : c ∈ punctuation_chars
  · simp [char_count, hp, process_char_punct f c hp]
  · by_cases hcp : char_phonemes f c = []
    · simp [char_count, hp, phoneme_count, hcp, process_char_empty f c hp hcp]
    · simp [char_count, hp, phoneme_count, hcp, process_char_nonempty f c hp hcp]

theorem char_count_pos (f : Char → List Char) (c : Char) : 1 ≤ char_count f c := by
  unfold char_count phoneme_count
  split
  · exact le_refl 1
  · split
    · exact le_refl 1
    · exact List.length_pos.mpr (by assumption)

theorem process_char_snd_ne_nil (f : Char → List Char) (c : Char) :
    (process_char f c).2 ≠ [] := by
  by_cases hp : c ∈ punctuation_chars
  · simp [process_char_punct f c hp]
  · by_cases hcp : char_phonemes f c = []
    · simp [process_char_empty f c hp hcp]
    · simpa [process_char_nonempty f c hp hcp] using hcp

theorem process_char_fst_eq (f : Char → List Char) (c : Char) :
    (process_char f c).1 = natRepr (char_count f c) := by
  by_cases hp : c ∈ punctuation_chars
  · simp [process_char_punct f c hp, char_count, hp]
    rfl
  · simp [process_char, hp, char_count]

theorem process_char_snd_mem (f : Char → List Char) (c : Char) :
    ∀ t ∈ (process_char f c).2, t ∈ twelveTokens := by
  intro t ht
  by_cases hp : c ∈ punctuation_chars
  · rw [process_char_punct f c hp] at ht
    simp only [List.mem_singleton] at ht
    subst ht
    decide
  · by_cases hcp : char_phonemes f c = []
    · rw [process_char_empty f c hp hcp] at ht
      simp only [List.mem_singleton] at ht
      subst ht
      decide
    · rw [process_char_nonempty f c hp hcp] at ht
      simp only at ht
      unfold char_phonemes at ht
      rcases List.mem_filter.mp ht with ⟨hmem, _⟩
      rcases List.mem_map.mp hmem with ⟨g, _, rfl⟩
      exact hiragana_to_phoneme_mem_twelve g

theorem natRepr_length_one (n : Nat) (h : n ≤ 9) : (natRepr n).length = 1 := by
  interval_cases n <;> rfl

theorem natRepr_mem_nonzero (n : Nat) (h1 : 1 ≤ n) (h9 : n ≤ 9) :
    ∀ d ∈ natRepr n, d ∈ nonzero_digits := by
  interval_cases n <;> decide

theorem splitComma_no_comma (t : List Char) (h : ',' ∉ t) : splitComma t = [t] := by
  induction t with
  | nil => rfl
  | cons c rest ih =>
    simp only [List.mem_cons] at h
    push_neg at h
    rw [splitComma, if_neg (fun he => h.1 he.symm), ih h.2]

theorem splitComma_append (t s : List Char) (h : ',' ∉ t) :
    splitComma (t ++ ',' :: s) = t :: splitComma s := by
  induction t with
  | nil => simp [splitComma]
  | cons c rest ih =>
    simp only [List.mem_cons] at h
    push_neg at h
    rw [List.cons_append, splitComma, if_neg (fun he => h.1 he.symm), ih h.2]

theorem commaJoin_cons (t : List Char) (rest : List (List Char)) (h : rest ≠ []) :
    commaJoin (t :: rest) = t ++ ',' :: commaJoin rest := by
  cases rest with
  | nil => exact absurd rfl h
  | cons r rs => rfl

theorem splitComma_commaJoin (L : List (List Char)) (hL : L ≠ [])
    (h : ∀ t ∈ L, ',' ∉ t) : splitComma (commaJoin L) = L := by
  induction L with
  | nil => exact absurd rfl hL
  | cons t rest ih =>
    cases rest with
    | nil => exact splitComma_no_comma t (h t (by simp))
    | cons r rs =>
      rw [commaJoin_cons t (r :: rs) (by simp), splitComma_append t _ (h t (by simp)),
        ih (by simp) (fun x hx => h x (List.mem_cons.mpr (Or.inr hx)))]

theorem flatten_length_of_one (l : List (List Char))
    (h : ∀ t ∈ l, t.length = 1) : l.flatten.length = l.length := by
  induction l with
  | nil => rfl
  | cons t rest ih =>
    rw [List.flatten_cons, List.length_append, h t (by simp), List.length_cons,
      ih (fun x hx => h x (by simp [hx]))]
    omega

theorem snd_flatten_length (f : Char → List Char) (l : List Char) :
    ((l.map (process_char f)).map Prod.snd).flatten.length =
      (l.map (char_count f)).sum := by
  induction l with
  | nil => rfl
  | cons c rest ih =>
    simp only [List.map_cons, List.flatten_cons, List.length_append, List.sum_cons, ih]
    rw [char_count_eq_snd_length f c]

theorem sub_fuel_no_match (pats : List TagPat) (s : List Char) (fuel : Nat)
    (h : has_match pats s = false) : sub_fuel pats fuel s = s := by
  induction s generalizing fuel with
  | nil => cases fuel <;> rfl
  | cons c rest ih =>
    cases fuel with
    | zero => rfl
    | succ n =>
      rw [has_match, Bool.or_eq_false_iff] at h
      obtain ⟨h1, h2⟩ := h
      have htp : try_pats pats (c :: rest) = none := by
        cases htp2 : try_pats pats (c :: rest) with
        | none => rfl
        | some r => rw [htp2] at h1; simp at h1
      simp only [sub_fuel, htp]
      rw [ih n h2]

theorem foldl_re_sub_no_match (gs : List (List TagPat)) (s : List Char)
    (h : ∀ g ∈ gs, has_match g s = false) :
    gs.foldl (fun t g => re_sub g t) s = s := by
  induction gs with
  | nil => rfl
  | cons g rest ih =>
    rw [List.foldl_cons]
    rw [show re_sub g s = s from sub_fuel_no_match g s s.length (h g (by simp))]
    exact ih (fun x hx => h x (by simp [hx]))

theorem clean_rich_text_no_tag (s : List Char) (h : has_any_tag s = false) :
    clean_rich_text s = s := by
  rw [clean_rich_text]
  apply foldl_re_sub_no_match
  intro g hg
  rw [has_any_tag, List.any_eq_false] at h
  simpa using h g hg

theorem process_text_empty_eq (f : Char → List Char) (text : List Char)
    (h : cleaned_text text = []) : process_text f text = (['0'], ['-']) := by
  rw [process_text]
  simp [h]

theorem process_text_fst_eq (f : Char → List Char) (text : List Char)
    (h : cleaned_text text ≠ []) :
    (process_text f text).1 =
      (((cleaned_text text).map (process_char f)).map Prod.fst).flatten := by
  rw [process_text]
  simp [h]

theorem process_text_snd_eq (f : Char → List Char) (text : List Char)
    (h : cleaned_text text ≠ []) :
    (process_text f text).2 =
      if (((cleaned_text text).map (process_char f)).map Prod.snd).flatten = []
      then ['-']
      else commaJoin ((((cleaned_text text).map (process_char f)).map Prod.snd).flatten) := by
  rw [process_text]
  simp [h]

theorem twelve_no_comma : ∀ x ∈ twelveTokens, ',' ∉ x := by decide

theorem flatten_snd_tokens (f : Char → List Char) (l : List Char) :
    ∀ t ∈ ((l.map (process_char f)).map Prod.snd).flatten, t ∈ twelveTokens := by
  intro t ht
  rcases List.mem_flatten.mp ht with ⟨x, hx, htx⟩
  rcases List.mem_map.mp hx with ⟨pc, hpc, rfl⟩
  rcases List.mem_map.mp hpc with ⟨c, hc, rfl⟩
  exact process_char_snd_mem f c t htx

/-! ### Claim theorems -/

/-- Claim C1, counterexample: with a backend that reads ま as itself, the
phoneme stream emitted for ま is the single comma-separated token na, not
the token pair n,a as the claim states. -/
theorem C1_counterexample :
    splitComma (process_text (fun c => [c]) ['ま']).2 ≠ [['n'], ['a']] := by
  decide

/-- Claim C1 (amended): for every bilabial-row hiragana glyph, the phoneme
table lookup yields the two-symbol string n followed by that glyph's own
row vowel, and stream serialization emits it as a single comma-separated
token — in particular ま yields the token na, ぶ yields nu and ぽ yields
no — one source glyph contributing one (two-symbol) token to the stream. -/
theorem C1_bilabial_single_token :
    (∀ p ∈ bilabial_vowel_pairs,
      hiragana_to_phoneme p.1 = ['n', p.2] ∧
        splitComma (process_text (fun c => [c]) [p.1]).2 = [['n', p.2]]) ∧
      hiragana_to_phoneme 'ま' = ['n', 'a'] ∧
      splitComma (process_text (fun c => [c]) ['ま']).2 = [['n', 'a']] ∧
      hiragana_to_phoneme 'ぶ' = ['n', 'u'] ∧
      splitComma (process_text (fun c => [c]) ['ぶ']).2 = [['n', 'u']] ∧
      hiragana_to_phoneme 'ぽ' = ['n', 'o'] ∧
      splitComma (process_text (fun c => [c]) ['ぽ']).2 = [['n', 'o']] := by
  decide

theorem C1_witness :
    ('ま', 'a') ∈ bilabial_vowel_pairs ∧
      (hiragana_to_phoneme 'ま' = ['n', 'a'] ∧
        splitComma (process_text (fun c => [c]) ['ま']).2 = [['n', 'a']]) :=
  ⟨by decide, C1_bilabial_single_token.1 ('ま', 'a') (by decide)⟩

/-- Claim C2, counterexample: with a backend that reads ま as itself, the
stream for ま contains the token na, which is not one of the seven
single-symbol tokens, so not every token is among a,i,u,e,o,n,-. -/
theorem C2_counterexample :
    ¬ ∀ t ∈ splitComma (process_text (fun c => [c]) ['ま']).2, t ∈ sevenTokens := by
  decide

/-- Claim C2 (amended): for every input string and every backend reading
function, every comma-separated token of the phonemeStream component of the
result is one of the twelve strings a, i, u, e, o, n, -, na, ni, nu, ne, no
(the bilabial encodings occur as single two-symbol tokens). -/
theorem C2_stream_tokens (f : Char → List Char) (text : List Char) :
    ∀ t ∈ splitComma (process_text f text).2, t ∈ twelveTokens := by
  intro t ht
  by_cases h : cleaned_text text = []
  · rw [process_text_empty_eq f text h] at ht
    rw [show splitComma ['-'] = [['-']] from rfl] at ht
    simp only [List.mem_singleton] at ht
    subst ht
    decide
  · rw [process_text_snd_eq f text h] at ht
    by_cases hnil :
        (((cleaned_text text).map (process_char f)).map Prod.snd).flatten = []
    · rw [if_pos hnil, show splitComma ['-'] = [['-']] from rfl] at ht
      simp only [List.mem_singleton] at ht
      subst ht
      decide
    · rw [if_neg hnil,
        splitComma_commaJoin _ hnil
          (fun tok htok => twelve_no_comma tok
            (flatten_snd_tokens f (cleaned_text text) tok htok))] at ht
      exact flatten_snd_tokens f (cleaned_text text) t ht

theorem C2_witness :
    ['n', 'a'] ∈ splitComma (process_text (fun c => [c]) ['ま']).2 ∧
      ['n', 'a'] ∈ twelveTokens :=
  ⟨by decide, C2_stream_tokens (fun c => [c]) ['ま'] ['n', 'a'] (by decide)⟩

/-- Claim C3, counterexample: with a backend that reads ね as ten あ, the
single remaining character gets phoneme count 10, so countDigits is the
two-character string 10 and its length exceeds the cleaned length 1; the
claim fails for this backend. -/
theorem C3_counterexample :
    (process_text (fun _ => List.replicate 10 'あ') ['ね']).1.length ≠
      (cleaned_text ['ね']).length := by
  decide

/-- Claim C3 (amended): for every input string and backend reading function
such that every remaining character's phoneme count is at most 9, the length
of countDigits equals the number of characters remaining after tag stripping
and whitespace removal; when that remainder is empty, countDigits is the
one-character string 0. -/
theorem C3_count_length (f : Char → List Char) (text : List Char)
    (h : ∀ c ∈ cleaned_text text, char_count f c ≤ 9) :
    (cleaned_text text = [] → (process_text f text).1 = ['0']) ∧
      (cleaned_text text ≠ [] →
        (process_text f text).1.length = (cleaned_text text).length) := by
  constructor
  · intro he
    rw [process_text_empty_eq f text he]
  · intro hne
    rw [process_text_fst_eq f text hne]
    rw [flatten_length_of_one]
    · simp
    · intro x hx
      rcases List.mem_map.mp hx with ⟨pc, hpc, rfl⟩
      rcases List.mem_map.mp hpc with ⟨c, hc, rfl⟩
      rw [process_char_fst_eq f c]
      exact natRepr_length_one _ (h c hc)

theorem C3_witness :
    (∀ c ∈ cleaned_text ['ま', '。', ' '], char_count (fun ch => [ch]) c ≤ 9) ∧
      (process_text (fun ch => [ch]) ['ま', '。', ' ']).1.length =
        (cleaned_text ['ま', '。', ' ']).length :=
  ⟨by decide,
    (C3_count_length (fun ch => [ch]) ['ま', '。', ' '] (by decide)).2 (by decide)⟩

/-- Claim C4, counterexample: with a backend that reads ね as ten あ, the
cleaned text is nonempty and countDigits is 10, which contains the digit 0,
so not every digit of countDigits is at least 1 for every backend. -/
theorem C4_counterexample :
    cleaned_text ['ね'] ≠ [] ∧
      '0' ∈ (process_text (fun _ => List.replicate 10 'あ') ['ね']).1 := by
  decide

/-- Claim C4 (amended): for every input with nonempty cleaned text and every
backend reading function such that every remaining character's phoneme count
is at most 9, every digit of countDigits is one of 1..9; moreover when a
character's reading collapses to excluded glyphs (its non-excluded phoneme
list is empty), its count is forced to 1 and a single - phoneme is emitted. -/
theorem C4_digits_positive (f : Char → List Char) (text : List Char)
    (hne : cleaned_text text ≠ [])
    (h : ∀ c ∈ cleaned_text text, char_count f c ≤ 9) :
    (∀ d ∈ (process_text f text).1, d ∈ nonzero_digits) ∧
      (∀ c : Char, c ∉ punctuation_chars → char_phonemes f c = [] →
        process_char f c = (['1'], [['-']])) := by
  constructor
  · intro d hd
    rw [process_text_fst_eq f text hne] at hd
    rcases List.mem_flatten.mp hd with ⟨x, hx, hdx⟩
    rcases List.mem_map.mp hx with ⟨pc, hpc, rfl⟩
    rcases List.mem_map.mp hpc with ⟨c, hc, rfl⟩
    rw [process_char_fst_eq f c] at hdx
    exact natRepr_mem_nonzero _ (char_count_pos f c) (h c hc) d hdx
  · exact fun c hcp hce => process_char_empty f c hcp hce

theorem C4_witness :
    cleaned_text ['ま', '。'] ≠ [] ∧
      (∀ c ∈ cleaned_text ['ま', '。'], char_count (fun ch => [ch]) c ≤ 9) ∧
      (∀ d ∈ (process_text (fun ch => [ch]) ['ま', '。']).1, d ∈ nonzero_digits) :=
  ⟨by decide, by decide,
    (C4_digits_positive (fun ch => [ch]) ['ま', '。'] (by decide) (by decide)).1⟩

/-- Claim C5: for every input string that is empty after tag stripping and
whitespace removal, process_text returns the sentinel pair (0, -), for every
backend reading function; no error is possible since the embedding is a
total function. -/
theorem C5_empty_input (f : Char → List Char) (text : List Char)
    (h : cleaned_text text = []) : process_text f text = (['0'], ['-']) :=
  process_text_empty_eq f text h

theorem C5_witness :
    cleaned_text ['<', 'b', '>', ' ', '\n', '<', '/', 'b', '>'] = [] ∧
      process_text (fun c => [c]) ['<', 'b', '>', ' ', '\n', '<', '/', 'b', '>'] =
        (['0'], ['-']) :=
  ⟨by decide, C5_empty_input _ _ (by decide)⟩

/-- Claim C6: for every character of the cleaned text in the fixed
punctuation/bracket set, the loop emits count 1 and the single phoneme -,
independently of the backend (the backend is not invoked on it); and for
input は。 with a backend reading は as は, the result is countDigits 11 and
phonemeStream a,-. -/
theorem C6_punctuation (c : Char) (hp : c ∈ punctuation_chars)
    (f g : Char → List Char) :
    process_char f c = (['1'], [['-']]) ∧
      process_char f c = process_char g c ∧
      process_text (fun ch => [ch]) ['は', '。'] = (['1', '1'], ['a', ',', '-']) :=
  ⟨process_char_punct f c hp,
   by rw [process_char_punct f c hp, process_char_punct g c hp],
   by decide⟩

theorem C6_witness :
    '。' ∈ punctuation_chars ∧
      (process_char (fun ch => [ch]) '。' = (['1'], [['-']]) ∧
        process_char (fun ch => [ch]) '。' = process_char (fun _ => []) '。' ∧
        process_text (fun ch => [ch]) ['は', '。'] = (['1', '1'], ['a', ',', '-'])) :=
  ⟨by decide, C6_punctuation '。' (by decide) (fun ch => [ch]) (fun _ => [])⟩

/-- Claim C7: every glyph not present in the kana-to-phoneme table resolves
to - (the lookup is a total function, so no error is possible); every glyph
whatsoever resolves to one of the twelve phoneme strings; and a character
whose backend reading consists of such an unknown glyph gets an empty
non-excluded phoneme list (the glyph is excluded per the exclusion policy). -/
theorem C7_unknown_glyph (c : Char)
    (h : c ∉ hiragana_phoneme_map.map Prod.fst) :
    hiragana_to_phoneme c = ['-'] ∧
      (∀ g : Char, hiragana_to_phoneme g ∈ twelveTokens) ∧
      (∀ (f : Char → List Char) (x : Char), f x = [c] → char_phonemes f x = []) := by
  have hn : hiragana_to_phoneme c = ['-'] := by
    unfold hiragana_to_phoneme
    rw [dict_get_eq_none _ _ h]
    rfl
  refine ⟨hn, hiragana_to_phoneme_mem_twelve, ?_⟩
  intro f x hfx
  unfold char_phonemes
  rw [hfx]
  simp [hn]

theorem C7_witness :
    'ア' ∉ hiragana_phoneme_map.map Prod.fst ∧ hiragana_to_phoneme 'ア' = ['-'] :=
  ⟨by decide, (C7_unknown_glyph 'ア' (by decide)).1⟩

set_option maxRecDepth 8192 in
/-- Claim C8, counterexample: tag stripping is not idempotent on every
string; stripping the inner b tag of <<b>b> splices the remaining characters
into a new b tag, so a second strip removes more. -/
theorem C8_counterexample :
    clean_rich_text (clean_rich_text ['<', '<', 'b', '>', 'b', '>']) ≠
      clean_rich_text ['<', '<', 'b', '>', 'b', '>'] := by
  decide

/-- Claim C8 (amended): tag stripping is idempotent on every input whose
stripped result contains no occurrence of a recognized tag: when no
recognized tag matches in strip(x), strip(strip(x)) = strip(x).  (In
general a removal can splice surrounding characters into a new recognized
tag, so unrestricted idempotence fails.) -/
theorem C8_strip_idempotent (x : List Char)
    (h : has_any_tag (clean_rich_text x) = false) :
    clean_rich_text (clean_rich_text x) = clean_rich_text x :=
  clean_rich_text_no_tag (clean_rich_text x) h

set_option maxRecDepth 8192 in
theorem C8_witness :
    has_any_tag (clean_rich_text ['<', 'b', '>', 'あ']) = false ∧
      clean_rich_text (clean_rich_text ['<', 'b', '>', 'あ']) =
        clean_rich_text ['<', 'b', '>', 'あ'] :=
  ⟨by decide, C8_strip_idempotent ['<', 'b', '>', 'あ'] (by decide)⟩

/-- Claim C9, counterexample: count_mora does not count the small katakana
vowel ァ (the source's small-character set also contains ァィゥェォ), but the
claim's set — small kana ゃゅょっ plus their katakana equivalents ャュョッ —
does not exclude ァ, so the claimed characterization gives 1 where the code
gives 0. -/
theorem C9_counterexample : count_mora ['ァ'] ≠ claimC9_count_mora ['ァ'] := by
  decide

/-- Claim C9 (amended): for every hiragana string, count_mora returns
exactly the number of characters that are neither in the small-kana set
ゃゅょっ together with the small katakana vowels ァィゥェォ and the katakana
equivalents ャュョッ, nor in the whitespace/punctuation set consisting of
space, tab, newline, the ASCII period and comma, and 。、. -/
theorem C9_count_mora_eq (h : List Char) :
    count_mora h = claimC9_amended_count_mora h := by
  induction h with
  | nil => rfl
  | cons c t ih =>
    unfold claimC9_amended_count_mora at ih ⊢
    rw [count_mora, List.filter_cons]
    by_cases hc : c ∉ small_chars ∧ c ∉ mora_skip_chars
    · have hc2 : c ∉ claimC9_amended_small_chars ∧ c ∉ mora_skip_chars := hc
      rw [if_pos hc, if_pos (decide_eq_true hc2), List.length_cons, ih]
      omega
    · have hc2 : ¬ (c ∉ claimC9_amended_small_chars ∧ c ∉ mora_skip_chars) := hc
      rw [if_neg hc, if_neg (fun hd => hc2 (of_decide_eq_true hd)), Nat.zero_add, ih]

/-- Claim C10: for every input with nonempty cleaned text and every backend
reading function, every processed character contributes at least one token
to the phoneme stream, and the sum of the per-character phoneme counts (the
numbers concatenated into countDigits) equals the number of comma-separated
tokens of phonemeStream. -/
theorem C10_alignment (f : Char → List Char) (text : List Char)
    (h : cleaned_text text ≠ []) :
    (∀ c ∈ cleaned_text text, 1 ≤ (process_char f c).2.length) ∧
      ((cleaned_text text).map (char_count f)).sum =
        (splitComma (process_text f text).2).length := by
  constructor
  · intro c hc
    rw [← char_count_eq_snd_length f c]
    exact char_count_pos f c
  · rw [process_text_snd_eq f text h]
    have hnil :
        (((cleaned_text text).map (process_char f)).map Prod.snd).flatten ≠ [] := by
      intro hmm
      rw [List.flatten_eq_nil_iff] at hmm
      cases hct : cleaned_text text with
      | nil => exact h hct
      | cons c rest =>
        refine process_char_snd_ne_nil f c (hmm _ ?_)
        rw [hct]
        simp
    rw [if_neg hnil,
      splitComma_commaJoin _ hnil
        (fun tok htok => twelve_no_comma tok
          (flatten_snd_tokens f (cleaned_text text) tok htok))]
    exact (snd_flatten_length f (cleaned_text text)).symm

theorem C10_witness :
    cleaned_text ['ま', '。'] ≠ [] ∧
      ((cleaned_text ['ま', '。']).map (char_count (fun ch => [ch]))).sum =
        (splitComma (process_text (fun ch => [ch]) ['ま', '。']).2).length :=
  ⟨by decide, (C10_alignment (fun ch => [ch]) ['ま', '。'] (by decide)).2⟩

end PhonemeConverter
